import Mathlib

/-!
Verification of the lakehouse-demo transformation framework.

The development shallowly embeds the pandas-based ETL code of the repository:
a `DataFrame` is a list of column names together with a list of rows, a cell
is either null (pandas NaN/NaT), a string, a rational number (embedding the
numeric columns) or a date (embedded as an integer timestamp).  The pandas
operations the transformers use (column selection, rename, left merge with
`_x`/`_y` suffixing of overlapping column names, `fillna`, `mean`, column
drop, duplicate-column removal) are defined below, mirroring the semantics
the source relies on; the transformer methods are then direct translations
of the Python source.
-/

namespace Lakehouse

/-- A single table cell: pandas NaN/NaT is `null`; numeric values are embedded
as rationals, datetimes as integer timestamps. -/
inductive Cell where
  | null : Cell
  | str : String → Cell
  | num : Rat → Cell
  | date : Int → Cell
deriving DecidableEq, Repr

/-- A pandas DataFrame: an ordered list of column names and a list of rows.
Column names may repeat (pandas allows duplicate labels). -/
structure DataFrame where
  cols : List String
  rows : List (List Cell)
deriving DecidableEq, Repr

/-- Number of rows (`len(df)` / `df.shape[0]`). -/
def DataFrame.rowCount (df : DataFrame) : Nat := df.rows.length

/-- Pandas `df.empty`: true when either axis has length zero. -/
def DataFrame.isEmpty (df : DataFrame) : Bool := df.rows.isEmpty || df.cols.isEmpty

/-- Index of the first column with the given name, if any. -/
def colIdx (cols : List String) (name : String) : Option Nat :=
  match cols with
  | [] => none
  | c :: t => if c == name then some 0 else (colIdx t name).map (· + 1)

/-- Read the cell of `row` in the first column named `name` (null when absent). -/
def rGet (cols : List String) (row : List Cell) (name : String) : Cell :=
  match colIdx cols name with
  | some i => row.getD i Cell.null
  | none => Cell.null

/-- The values of the first column named `name` (`df[name]` as a series). -/
def DataFrame.getCol (df : DataFrame) (name : String) : List Cell :=
  match colIdx df.cols name with
  | some i => df.rows.map (fun r => r.getD i Cell.null)
  | none => []

/-- All positions of columns named `name`, in order. -/
def colIdxs (cols : List String) (name : String) : List Nat :=
  (List.range cols.length).filter (fun i => cols.getD i "" == name)

/-- Pandas label-based selection `df[names]`: for each requested label, every
column carrying that label is taken, in frame order; a label listed twice is
taken twice. -/
def DataFrame.select (df : DataFrame) (names : List String) : DataFrame :=
  let idxs := names.flatMap (fun n => colIdxs df.cols n)
  ⟨idxs.map (fun i => df.cols.getD i ""),
   df.rows.map (fun r => idxs.map (fun i => r.getD i Cell.null))⟩

/-- Pandas `df.rename(columns=m)`: every column label is looked up in the
mapping and replaced when present. -/
def DataFrame.renameCols (df : DataFrame) (m : List (String × String)) : DataFrame :=
  ⟨df.cols.map (fun c => ((m.lookup c).getD c)), df.rows⟩

/-- Pandas column assignment `df[name] = vals`: overwrite the column when the
label exists, append a new column otherwise. -/
def DataFrame.setCol (df : DataFrame) (name : String) (vals : List Cell) : DataFrame :=
  match colIdx df.cols name with
  | some i => ⟨df.cols, List.zipWith (fun r v => r.set i v) df.rows vals⟩
  | none => ⟨df.cols ++ [name], List.zipWith (fun r v => r ++ [v]) df.rows vals⟩

/-- Pandas `df.drop(columns=[name])`: remove every column carrying the label. -/
def DataFrame.dropCol (df : DataFrame) (name : String) : DataFrame :=
  let keep := (List.range df.cols.length).filter (fun i => ! (df.cols.getD i "" == name))
  ⟨keep.map (fun i => df.cols.getD i ""),
   df.rows.map (fun r => keep.map (fun i => r.getD i Cell.null))⟩

/-- Numeric values of a series (pandas numeric operations skip NaN). -/
def cellNums (cells : List Cell) : List Rat :=
  cells.filterMap (fun c => match c with | Cell.num q => some q | _ => none)

/-- Exact rational addition, written in a form the kernel evaluates directly
(`Rat.add` is irreducible); it agrees with `+` on `Rat`. -/
def ratAdd (a b : Rat) : Rat :=
  Rat.divInt (a.num * (b.den : Int) + b.num * (a.den : Int)) ((a.den : Int) * (b.den : Int))

/-- Exact sum of a list of rationals, via `ratAdd`. -/
def ratSum (l : List Rat) : Rat := l.foldr ratAdd 0

/-- Exact division of a rational by a natural number, written in a form the
kernel evaluates directly (it equals `q / n` for `n ≠ 0`). -/
def ratDivNat (q : Rat) (n : Nat) : Rat := Rat.divInt q.num ((q.den : Int) * (n : Int))

/-- Pandas `series.mean()`: mean of the non-null numeric values, NaN (`none`)
when there are none. -/
def meanCells (cells : List Cell) : Option Rat :=
  let vs := cellNums cells
  if vs.isEmpty then none else some (ratDivNat (ratSum vs) vs.length)

/-- Pandas `a.fillna(b)` for two aligned series. -/
def seriesFillna (a b : List Cell) : List Cell :=
  List.zipWith (fun x y => if x = Cell.null then y else x) a b

/-- Pandas `a.fillna(m)` with a scalar that may itself be NaN (`none`), in
which case the series is unchanged. -/
def seriesFillnaMean (a : List Cell) (m : Option Rat) : List Cell :=
  match m with
  | none => a
  | some q => a.map (fun x => if x = Cell.null then Cell.num q else x)

/-- Pandas `df[name].isna().sum()`. -/
def nullCountCol (df : DataFrame) (name : String) : Nat :=
  (df.getCol name).countP (fun c => c == Cell.null)

/-- Row block of a left merge: every left row is kept; a row with matching
right rows is repeated once per match and extended by the kept right cells, a
row without a match is extended by nulls.  `keep` lists the kept right-column
positions. -/
def mergeRows (l r : DataFrame) (lkey rkey : String) (keep : List Nat) : List (List Cell) :=
  l.rows.flatMap (fun lr =>
    let ms := r.rows.filter (fun rr => rGet r.cols rr rkey == rGet l.cols lr lkey)
    if ms.isEmpty then [lr ++ keep.map (fun _ => Cell.null)]
    else ms.map (fun rr => lr ++ keep.map (fun i => rr.getD i Cell.null)))

/-- Positions of the right columns kept by `merge(on=key)`: all but the key. -/
def keepIdxsExcept (cols : List String) (key : String) : List Nat :=
  (List.range cols.length).filter (fun i => ! (cols.getD i "" == key))

/-- Pandas `l.merge(r, on=key, how="left")`: the single key column comes from
the left frame, every other overlapping label gets the `_x`/`_y` suffixes. -/
def mergeOn (l r : DataFrame) (key : String) : DataFrame :=
  let keep := keepIdxsExcept r.cols key
  let lcols := l.cols.map (fun c => if c ≠ key ∧ c ∈ r.cols then c ++ "_x" else c)
  let rcols := keep.map (fun i =>
    let c := r.cols.getD i ""
    if c ≠ key ∧ c ∈ l.cols then c ++ "_y" else c)
  ⟨lcols ++ rcols, mergeRows l r key key keep⟩

/-- Pandas `l.merge(r, left_on=lkey, right_on=rkey, how="left")`: both key
columns are kept and every overlapping label gets the `_x`/`_y` suffixes. -/
def mergeLR (l r : DataFrame) (lkey rkey : String) : DataFrame :=
  let keep := List.range r.cols.length
  let lcols := l.cols.map (fun c => if c ∈ r.cols then c ++ "_x" else c)
  let rcols := r.cols.map (fun c => if c ∈ l.cols then c ++ "_y" else c)
  ⟨lcols ++ rcols, mergeRows l r lkey rkey keep⟩

/-- Positions of duplicate labels (`df.columns.duplicated()`): a position is
marked when its label already occurred earlier. -/
def dupMaskIdxs (cols : List String) : List Nat :=
  (List.range cols.length).filter (fun i => (cols.take i).contains (cols.getD i ""))

/-- The duplicate labels themselves (`df.columns[df.columns.duplicated()]`). -/
def duplicateColNames (cols : List String) : List String :=
  (dupMaskIdxs cols).map (fun i => cols.getD i "")

/-- Pandas `df.loc[:, ~df.columns.duplicated(keep="first")]`: keep the first
column of each label, drop later ones. -/
def dedupKeepFirst (df : DataFrame) : DataFrame :=
  let keep := (List.range df.cols.length).filter
    (fun i => ! ((df.cols.take i).contains (df.cols.getD i "")))
  ⟨keep.map (fun i => df.cols.getD i ""),
   df.rows.map (fun r => keep.map (fun i => r.getD i Cell.null))⟩

/-! ## Gold assembler: customer dimension (dim_customer_transformer.py) -/

/-- DimCustomerTransformer._select_columns: the fixed 25-column contract of
the joined customer intermediate; the imputation steps run on a frame with
exactly these columns, in this order. -/
def dimCustomerSelectedColumns : List String :=
  ["customer_id", "customer_name", "full_name", "email_address", "phone_number",
   "fax_number", "website_url", "bill_to_customer_id", "credit_limit",
   "delivery_method_name", "delivery_address_line1", "delivery_address_line2",
   "delivery_postal_code", "postal_address_line1", "postal_address_line2",
   "postal_postal_code", "city_name", "state_province_code", "state_province_name",
   "sales_territory", "country_name", "iso_alpha3_code", "continent", "region", "subregion"]

/-- DimCustomerTransformer._impute_credit_limit: self-join the frame on the
bill-to relationship to bring in the parent credit limit, compute the column
mean, fill nulls first from the parent column and then with the mean, and
drop the temporary parent column. -/
def imputeCreditLimit (df : DataFrame) : DataFrame :=
  let mainCustomerCredits :=
    (df.select (["customer_id", "credit_limit"])).renameCols
      ([("customer_id", "bill_to_customer_id"), ("credit_limit", "parent_credit_limit")])
  let merged := mergeOn df mainCustomerCredits ("bill_to_customer_id")
  let avgCredit := meanCells (merged.getCol ("credit_limit"))
  let filled :=
    seriesFillnaMean
      (seriesFillna (merged.getCol ("credit_limit")) (merged.getCol ("parent_credit_limit")))
      avgCredit
  (merged.setCol ("credit_limit") filled).dropCol ("parent_credit_limit")

/-- Python `str.replace` on character lists: replace every non-overlapping
occurrence of `pat`, scanning left to right.  The fuel argument (instantiated
with the string length) makes the recursion structural; each step consumes at
least one character when `pat` is nonempty. -/
def replaceFuel : Nat → List Char → List Char → List Char → List Char
  | 0, s, _, _ => s
  | fuel + 1, s, pat, rep =>
    match s with
    | [] => []
    | c :: t =>
      if pat ≠ [] ∧ pat.isPrefixOf (c :: t) then
        rep ++ replaceFuel fuel ((c :: t).drop pat.length) pat rep
      else c :: replaceFuel fuel t pat rep

/-- Python `s.replace(pat, rep)` (for nonempty `pat`, the only use here). -/
def pyReplace (s pat rep : String) : String :=
  ⟨replaceFuel s.data.length s.data pat.data rep.data⟩

/-- Python `s.lower()` (ASCII, which the customer names satisfy). -/
def pyLower (s : String) : String := ⟨s.data.map Char.toLower⟩

/-- The synthesized placeholder address of _impute_contact_info: the customer
name with the literal suffix token " (Head Office)" removed everywhere, spaces
removed, lower-cased, wrapped in "info@" and ".com". -/
def mkEmail (name : String) : String :=
  "info@" ++ pyLower (pyReplace (pyReplace name (" (Head Office)") ("")) (" ") ("")) ++ ".com"

/-- The row lambda of the email imputation, `df.apply(..., axis=1)`: keep a
non-null email, otherwise synthesize one from the customer name; a non-string
customer name makes the Python lambda raise (AttributeError on `.replace`). -/
def imputeEmailRow (cols : List String) (row : List Cell) : Except String Cell :=
  if rGet cols row ("email_address") ≠ Cell.null then Except.ok (rGet cols row ("email_address"))
  else
    match rGet cols row ("customer_name") with
    | Cell.str s => Except.ok (Cell.str (mkEmail s))
    | _ => Except.error ("AttributeError")

/-- Pandas `series.fillna("Head Office")` on one cell. -/
def fillHeadOffice (c : Cell) : Cell :=
  if c = Cell.null then Cell.str ("Head Office") else c

/-- DimCustomerTransformer._impute_contact_info: fill null contact names with
the fixed sentinel label, then synthesize missing email addresses from the
customer name. -/
def imputeContactInfo (df : DataFrame) : Except String DataFrame :=
  let df1 := df.setCol ("full_name") ((df.getCol ("full_name")).map fillHeadOffice)
  match df1.rows.mapM (fun r => imputeEmailRow df1.cols r) with
  | Except.ok emails => Except.ok (df1.setCol ("email_address") emails)
  | Except.error e => Except.error e

/-- DimCustomerTransformer._build_responsible_market: provinces left-joined
with countries on the country id, then with cities on the province id. -/
def buildResponsibleMarket (provinces countries cities : DataFrame) : DataFrame :=
  let rm := mergeOn provinces
    (countries.select (["country_id", "country_name", "iso_alpha3_code", "continent",
      "region", "subregion"])) ("country_id")
  mergeOn rm (cities.select (["state_province_id", "city_id", "city_name"])) ("state_province_id")

/-- DimCustomerTransformer._build_customer_dimension: customers left-joined
with delivery methods, the responsible-market bridge and people. -/
def buildCustomerDimension (customers deliveryMethods responsibleMarket people : DataFrame) :
    DataFrame :=
  let df := mergeOn customers
    (deliveryMethods.select (["delivery_method_id", "delivery_method_name"]))
    ("delivery_method_id")
  let df := mergeLR df
    (responsibleMarket.select (["city_id", "city_name", "country_name", "state_province_code",
      "state_province_name", "iso_alpha3_code", "continent", "region",
      "subregion", "sales_territory"]))
    ("delivery_city_id") ("city_id")
  mergeLR df (people.select (["person_id", "full_name", "email_address"]))
    ("primary_contact_person_id") ("person_id")

/-! ## Gold assembler: orders fact (fact_orders_transformer.py) -/

/-- FactOrdersTransformer._build_orders_fact: orders left-joined with
customers, twice with people (sales person and contact person) and with the
order lines; the order-lines join is one-to-many by design. -/
def buildOrdersFact (orders customers people orderLines : DataFrame) : DataFrame :=
  let df := mergeOn orders (customers.select (["customer_id", "customer_name"])) ("customer_id")
  let df := (mergeLR df (people.select (["person_id", "full_name"]))
    ("salesperson_id") ("person_id")).renameCols ([("full_name", "sales_person")])
  let df := (mergeLR df (people.select (["person_id", "full_name"]))
    ("contact_person_id") ("person_id")).renameCols ([("full_name", "contact_person")])
  mergeOn df (orderLines.select (["order_id", "order_line_id", "stock_item_id", "description",
    "package_type_id", "quantity", "unit_price", "tax_rate", "picked_quantity",
    "picking_completed_when"])) ("order_id")

/-! ## Gold assembler: purchases fact (fact_purchases_transformer.py) -/

/-- FactPurchasesTransformer._build_purchases_fact: purchases left-joined with
people and with the purchase order lines (whose selection lists
package_type_id twice, as in the source), then duplicate column labels are
dropped keeping the first occurrence when any are present. -/
def buildPurchasesFact (purchases people purchaseOrderLines : DataFrame) : DataFrame :=
  let df := (mergeLR purchases (people.select (["person_id", "full_name"]))
    ("contact_person_id") ("person_id")).renameCols ([("full_name", "contact_person")])
  let df := mergeOn df (purchaseOrderLines.select (["purchase_order_id", "purchase_order_line_id",
    "stock_item_id", "ordered_outers", "received_outers", "package_type_id", "description",
    "package_type_id", "expected_unit_price_per_outer", "last_receipt_date"]))
    ("purchase_order_id")
  if (duplicateColNames df.cols).isEmpty then df else dedupKeepFirst df

/-! ## Base transformer lifecycle (base_transformer.py) -/

/-- A leveled log line. -/
inductive LogEntry where
  | info : String → LogEntry
  | warn : String → LogEntry
  | err : String → LogEntry
deriving DecidableEq, Repr

/-- BaseTransformer._validate_nulls: log the null count of every
expected-null column, warn for every required column that has nulls, and
return the frame untouched. -/
def validateNulls (df : DataFrame) (expectedNulls : List (String × String))
    (requiredColumns : List String) : List LogEntry × DataFrame :=
  let logs1 := expectedNulls.map (fun p =>
    LogEntry.info ("[NULLS] " ++ p.1 ++ ": expected (" ++ p.2 ++ ")"))
  let logs2 := requiredColumns.map (fun c =>
    if 0 < nullCountCol df c then LogEntry.warn ("[NULLS] Unexpected nulls in " ++ c)
    else LogEntry.info ("[NULLS] " ++ c ++ ": OK (0 nulls)"))
  (logs1 ++ logs2, df)

/-- DimensionTransformer._handle_nulls: valid_to is expected-null when
present; every other column warns when it contains nulls; the frame is
returned untouched. -/
def handleNulls (df : DataFrame) : List LogEntry × DataFrame :=
  let l1 := if "valid_to" ∈ df.cols
    then [LogEntry.info ("[NULLS] valid_to: expected (currently active records)")] else []
  let l2 := (df.cols.filter (fun c => ! (c == "valid_to"))).map (fun c =>
    if 0 < nullCountCol df c then LogEntry.warn ("[NULLS] Unexpected nulls in " ++ c)
    else LogEntry.info ("[NULLS] " ++ c ++ ": OK (0 nulls)"))
  (l1 ++ l2, df)

/-- BaseTransformer._save_parquet: warn and skip when the frame is empty,
otherwise write it. -/
def saveParquet (df : DataFrame) : List LogEntry × Option DataFrame :=
  if df.isEmpty then ([LogEntry.warn ("[SAVE] DataFrame is empty - skipping save")], none)
  else ([LogEntry.info ("[SAVE] Saved")], some df)

/-- SilverTransformer.run: check the output filename, abort cleanly (log,
no write, no raise) when the load is empty, otherwise transform and save;
an exception inside transform propagates uncaught (there is no try block). -/
def silverRun (outputFilename : String) (loaded : DataFrame)
    (transform : DataFrame → Except String DataFrame) :
    List LogEntry × Except String (Option DataFrame) :=
  if outputFilename = "" then
    ([], Except.error ("NotImplementedError: must set output filename"))
  else if loaded.isEmpty then
    ([LogEntry.err ("[RUN] Aborting - empty DataFrame after load")], Except.ok none)
  else
    match transform loaded with
    | Except.error e => ([], Except.error e)
    | Except.ok df =>
      let s := saveParquet df
      (s.1, Except.ok s.2)

/-- GoldTransformer.run: check the output filename, abort cleanly when the
transform result is empty, save otherwise; an exception raised by transform
is logged as an error and then re-raised. -/
def goldRun (outputFilename : String) (transformResult : Except String DataFrame) :
    List LogEntry × Except String (Option DataFrame) :=
  if outputFilename = "" then
    ([], Except.error ("NotImplementedError: must set output filename"))
  else
    match transformResult with
    | Except.error e =>
      ([LogEntry.err ("[RUN] Error during transformation: " ++ e)], Except.error e)
    | Except.ok df =>
      if df.isEmpty then
        ([LogEntry.err ("[RUN] Aborting - empty DataFrame after transform")], Except.ok none)
      else
        let s := saveParquet df
        (s.1, Except.ok s.2)

/-! ## Run orchestrator (run_all.py) -/

/-- Whether a transform run raised. -/
def runFailed (r : Except String Unit) : Bool :=
  match r with
  | Except.ok _ => false
  | Except.error _ => true

/-- run_all._run_transformers: attempt every transformer in order, catch each
exception at the loop boundary and record the failing name; returns the
attempted names (in order) and the failed names (in order).  The function is
total: the orchestrator itself never raises. -/
def runTransformers : List (String × Except String Unit) → List String × List String
  | [] => ([], [])
  | (name, res) :: rest =>
    let acc := runTransformers rest
    (name :: acc.1, match res with
      | Except.ok _ => acc.2
      | Except.error _ => name :: acc.2)

/-- The per-wave succeeded tally reported by run_all:
`len(transformers) - len(failed)`. -/
def waveSucceededCount (ts : List (String × Except String Unit)) : Nat :=
  ts.length - (runTransformers ts).2.length

/-! ## Config-driven generic dimension transformer (dimension_transformer.py) -/

/-- One entry of dimensions.yml as consumed by DimensionTransformer. -/
structure DimensionConfigEntry where
  bronze_file : String
  silver_file : String
  rename : List (String × String)
  date_columns : List String
  log_file : String
deriving DecidableEq, Repr

/-- The explicit check in DimensionTransformer.__init__: an unknown dimension
name raises ValueError, a known one yields its config entry. -/
def dimensionInitCheck (config : List (String × DimensionConfigEntry)) (name : String) :
    Except String DimensionConfigEntry :=
  match config.lookup name with
  | none => Except.error ("ValueError: Unknown dimension: " ++ name)
  | some entry => Except.ok entry

/-- Whether the class DimensionTransformer overrides the abstract method
`run` inherited from BaseTransformer(ABC).  The class body defines __init__,
_rename_columns, _cast_dtypes, _handle_nulls and transform, but no run, so
this is false. -/
def dimensionTransformerImplementsRun : Bool := false

/-- Constructing DimensionTransformer(name) under Python semantics: because
BaseTransformer declares `run` with @abstractmethod and the subclass never
implements it, object.__new__ raises TypeError for every name, before
__init__ (and hence the unknown-name ValueError check) can run. -/
def dimensionTransformerNew (config : List (String × DimensionConfigEntry)) (name : String) :
    Except String DimensionConfigEntry :=
  if dimensionTransformerImplementsRun then dimensionInitCheck config name
  else Except.error
    ("TypeError: cannot instantiate abstract class DimensionTransformer with abstract method run")

/-- BaseTransformer._to_datetime, `pd.to_datetime(series, errors="coerce")`:
nulls stay null, parse failures become null, successes become dates.  The
parse function itself is a parameter of the embedding. -/
def toDatetime (parse : Cell → Option Int) (c : Cell) : Cell :=
  if c = Cell.null then Cell.null
  else match parse c with
    | some d => Cell.date d
    | none => Cell.null

/-- The renamed (canonical) names of the configured date columns, as computed
in DimensionTransformer._cast_dtypes: `config["rename"].get(col, col)`. -/
def dateColsRenamed (config : DimensionConfigEntry) : List String :=
  config.date_columns.map (fun col => ((config.rename.lookup col).getD col))

/-- DimensionTransformer._cast_dtypes: for each renamed date column that is
present in the frame, coerce it with _to_datetime; absent columns are
skipped silently. -/
def castDtypesDim (parse : Cell → Option Int) (config : DimensionConfigEntry)
    (df : DataFrame) : DataFrame :=
  (dateColsRenamed config).foldl
    (fun acc col =>
      if col ∈ acc.cols then acc.setCol col ((acc.getCol col).map (toDatetime parse))
      else acc)
    df

/-! ## Concrete example frames -/

/-- A one-row orders table (anchor) for the orders fact. -/
def ordersEx : DataFrame :=
  ⟨["order_id", "customer_id", "salesperson_id", "contact_person_id"],
   [[Cell.num 1, Cell.num 10, Cell.num 20, Cell.num 21]]⟩

/-- An orders table that already carries a duplicated column label. -/
def ordersDup : DataFrame :=
  ⟨["order_id", "customer_id", "salesperson_id", "contact_person_id", "comment", "comment"],
   [[Cell.num 1, Cell.num 10, Cell.num 20, Cell.num 21, Cell.null, Cell.null]]⟩

/-- A one-row customers reference table. -/
def customersEx : DataFrame :=
  ⟨["customer_id", "customer_name"], [[Cell.num 10, Cell.str ("Acme")]]⟩

/-- A two-row people reference table with distinct person ids. -/
def peopleEx : DataFrame :=
  ⟨["person_id", "full_name"],
   [[Cell.num 20, Cell.str ("Ann")], [Cell.num 21, Cell.str ("Bob")]]⟩

/-- Two order lines belonging to the same order: the one-to-many case. -/
def orderLinesEx : DataFrame :=
  ⟨["order_id", "order_line_id", "stock_item_id", "description", "package_type_id",
    "quantity", "unit_price", "tax_rate", "picked_quantity", "picking_completed_when"],
   [[Cell.num 1, Cell.num 1, Cell.num 5, Cell.str ("thing"), Cell.num 7,
     Cell.num 2, Cell.num 9, Cell.num 15, Cell.num 2, Cell.null],
    [Cell.num 1, Cell.num 2, Cell.num 6, Cell.str ("other"), Cell.num 7,
     Cell.num 3, Cell.num 4, Cell.num 15, Cell.num 3, Cell.null]]⟩


/-- A concrete date parse function for the cast-hook witness. -/
def parseDateEx (c : Cell) : Option Int :=
  match c with
  | Cell.str s => if s = "2013-01-01" then some 1357 else none
  | _ => none

/-- A concrete config entry whose date columns rename to valid_from and to a
column that is absent from the frame. -/
def dimConfigEx : DimensionConfigEntry :=
  ⟨"Application.People.csv", "people.parquet",
   [("ValidFrom", "valid_from"), ("FullName", "full_name")],
   ["ValidFrom", "ValidTo"], "transform_people.log"⟩

/-- A concrete two-row frame for the cast-hook witness: one parsable date,
one malformed value, plus an untouched name column. -/
def dimFrameEx : DataFrame :=
  ⟨["valid_from", "full_name"],
   [[Cell.str ("2013-01-01"), Cell.str ("Ann")],
    [Cell.str ("bogus"), Cell.str ("Bob")]]⟩

/-- A plausible dimensions.yml entry (the yml file itself is not part of the
sources; only the shape its consumer reads is relevant here). -/
def dimensionsConfigSample : List (String × DimensionConfigEntry) :=
  [("colors",
    ⟨"Warehouse.Colors.csv", "colors.parquet",
     [("ColorID", "color_id"), ("ColorName", "color_name")], [], "transform_colors.log"⟩),
   ("countries",
    ⟨"Application.Countries.csv", "countries.parquet",
     [("CountryID", "country_id"), ("CountryName", "country_name")], [],
     "transform_countries.log"⟩)]


/-- The credit limit of the parent record of a row: the (first) row whose
customer id equals this row's bill-to customer id, on the 25-column customer
frame; null when no such row exists. -/
def parentCredit (rows : List (List Cell)) (lr : List Cell) : Cell :=
  match rows.find? (fun r => rGet dimCustomerSelectedColumns r ("customer_id")
      == rGet dimCustomerSelectedColumns lr ("bill_to_customer_id")) with
  | some pr => rGet dimCustomerSelectedColumns pr ("credit_limit")
  | none => Cell.null

/-- The per-row credit-limit imputation rule as amended: a non-null credit
limit is kept; a null one is filled from the parent record when that parent
credit limit is non-null; a row still null after the parent fill receives the
mean of the non-null credit limits of the input column (computed before the
parent-fill pass); when no non-null credit limit exists the cell stays null. -/
def creditRule (rows : List (List Cell)) (lr : List Cell) : Cell :=
  let credit := rGet dimCustomerSelectedColumns lr ("credit_limit")
  if credit ≠ Cell.null then credit
  else
    let pc := parentCredit rows lr
    if pc ≠ Cell.null then pc
    else
      match meanCells (rows.map (fun r =>
          rGet dimCustomerSelectedColumns r ("credit_limit"))) with
      | some q => Cell.num q
      | none => Cell.null

/-- The fill value the code computes for one row, in raw positional form:
fillna with the parent credit, then fillna with the (possibly NaN) mean. -/
def creditFill (rows : List (List Cell)) (lr : List Cell) : Cell :=
  let base := if lr.getD 8 Cell.null = Cell.null then parentCredit rows lr
    else lr.getD 8 Cell.null
  match meanCells (rows.map (fun r => r.getD 8 Cell.null)) with
  | none => base
  | some q => if base = Cell.null then Cell.num q else base

/-- Four concrete 25-column customer rows: two parents with credit limits 100
and 200, a child of the first parent with a null credit limit, and a row
with a null credit limit whose bill-to id matches no other customer. -/
def creditRowsEx : List (List Cell) :=
  [[Cell.num 1, Cell.null, Cell.null, Cell.null, Cell.null, Cell.null, Cell.null,
    Cell.num 1, Cell.num 100] ++ List.replicate 16 Cell.null,
   [Cell.num 2, Cell.null, Cell.null, Cell.null, Cell.null, Cell.null, Cell.null,
    Cell.num 2, Cell.num 200] ++ List.replicate 16 Cell.null,
   [Cell.num 3, Cell.null, Cell.null, Cell.null, Cell.null, Cell.null, Cell.null,
    Cell.num 1, Cell.null] ++ List.replicate 16 Cell.null,
   [Cell.num 4, Cell.null, Cell.null, Cell.null, Cell.null, Cell.null, Cell.null,
    Cell.num 4, Cell.null] ++ List.replicate 16 Cell.null]

/-- The value computed by the email-imputation lambda on one row (the total
restatement of `imputeEmailRow` used to describe its successful result): a
non-null email address is kept, otherwise the address is synthesized from the
customer name. -/
def emailRule (cols : List String) (row : List Cell) : Cell :=
  if rGet cols row ("email_address") ≠ Cell.null then rGet cols row ("email_address")
  else
    match rGet cols row ("customer_name") with
    | Cell.str s => Cell.str (mkEmail s)
    | _ => Cell.null

/-- Two concrete 25-column customer rows: one with null contact name and null
email (customer name carries the literal Head Office suffix), one with both
contact fields present. -/
def contactRowsEx : List (List Cell) :=
  [[Cell.num 1, Cell.str ("Tailspin Toys (Head Office)"), Cell.null, Cell.null]
     ++ List.replicate 21 Cell.null,
   [Cell.num 2, Cell.str ("Acme"), Cell.str ("Jane"), Cell.str ("jane@acme.com")]
     ++ List.replicate 21 Cell.null]

/-! ## General list helper lemmas -/

theorem zipWith_map_same {α β γ : Type} (f : α → β → γ) (g : α → β) (xs : List α) :
    List.zipWith f xs (xs.map g) = xs.map (fun x => f x (g x)) := by
  induction xs with
  | nil => rfl
  | cons a t ih => simpa using ih

theorem flatMap_singleton_eq_map {α β : Type} (f : α → β) (xs : List α) :
    (xs.flatMap (fun x => [f x])) = xs.map f := by
  induction xs with
  | nil => rfl
  | cons a t ih => simpa using ih

theorem length_flatMap_ge {α β : Type} (f : α → List β) (xs : List α)
    (h : ∀ x ∈ xs, 1 ≤ (f x).length) : xs.length ≤ (xs.flatMap f).length := by
  induction xs with
  | nil => simp
  | cons a t ih =>
    have ha : 1 ≤ (f a).length := h a (by simp)
    have ht : t.length ≤ (t.flatMap f).length := ih (fun x hx => h x (by simp [hx]))
    simp only [List.flatMap_cons, List.length_append, List.length_cons]
    omega

theorem length_filter_not_add_length_filter {α : Type} (p : α → Bool) (l : List α) :
    (l.filter (fun a => ! p a)).length + (l.filter p).length = l.length := by
  induction l with
  | nil => rfl
  | cons a t ih =>
    by_cases h : p a = true
    · simp [List.filter_cons, h]
      omega
    · have h2 : p a = false := by simpa using h
      simp [List.filter_cons, h2]
      omega

theorem filter_eq_find_toList {α : Type} (p : α → Bool) (xs : List α)
    (h : xs.countP p ≤ 1) : xs.filter p = (xs.find? p).toList := by
  induction xs with
  | nil => rfl
  | cons a t ih =>
    by_cases hpa : p a = true
    · have hz : t.countP p = 0 := by
        have := h
        simp only [List.countP_cons, hpa, if_true] at this
        omega
      have hfilter : t.filter p = [] := by
        simpa [List.filter_eq_nil_iff] using (List.countP_eq_zero.mp hz)
      simp [List.filter_cons, List.find?, hpa, hfilter]
    · have hpa2 : p a = false := by simpa using hpa
      have hle : t.countP p ≤ 1 := by
        have := h
        simp only [List.countP_cons, hpa2] at this
        omega
      simp [List.filter_cons, List.find?, hpa2, ih hle]

theorem getD_append_left {α : Type} (xs ys : List α) (i : Nat) (d : α)
    (h : i < xs.length) : (xs ++ ys).getD i d = xs.getD i d := by
  induction xs generalizing i with
  | nil => simp at h
  | cons a t ih =>
    cases i with
    | zero => rfl
    | succ j =>
      have : j < t.length := by simpa using h
      simpa using ih j this

theorem set_append_left {α : Type} (xs ys : List α) (i : Nat) (v : α)
    (h : i < xs.length) : (xs ++ ys).set i v = xs.set i v ++ ys := by
  induction xs generalizing i with
  | nil => simp at h
  | cons a t ih =>
    cases i with
    | zero => rfl
    | succ j =>
      have : j < t.length := by simpa using h
      simp [List.set_cons_succ, ih j this]

theorem getD_set_ne {α : Type} (r : List α) (i j : Nat) (v d : α) (h : i ≠ j) :
    (r.set i v).getD j d = r.getD j d := by
  induction r generalizing i j with
  | nil => simp
  | cons a t ih =>
    cases i with
    | zero =>
      cases j with
      | zero => exact absurd rfl h
      | succ j2 => rfl
    | succ i2 =>
      cases j with
      | zero => rfl
      | succ j2 =>
        have : i2 ≠ j2 := by omega
        simpa using ih i2 j2 this

theorem getD_set_self {α : Type} (r : List α) (i : Nat) (v d : α) (h : i < r.length) :
    (r.set i v).getD i d = v := by
  induction r generalizing i with
  | nil => simp at h
  | cons a t ih =>
    cases i with
    | zero => rfl
    | succ j =>
      have : j < t.length := by simpa using h
      simpa using ih j this

theorem map_getD_range_eq_self {α : Type} (r : List α) (n : Nat) (d : α)
    (h : r.length = n) : (List.range n).map (fun i => r.getD i d) = r := by
  induction r generalizing n with
  | nil => simp [← h]
  | cons a t ih =>
    subst h
    simp only [List.length_cons, List.range_succ_eq_map, List.map_cons, List.map_map]
    have hfun : (fun i => (a :: t).getD i d) ∘ Nat.succ = fun i => t.getD i d := by
      funext i
      rfl
    rw [hfun, ih t.length rfl]
    rfl

theorem zipWith_map_both {α β γ δ : Type} (f : α → β) (g : α → γ) (h : β → γ → δ)
    (xs : List α) :
    List.zipWith h (xs.map f) (xs.map g) = xs.map (fun x => h (f x) (g x)) := by
  induction xs with
  | nil => rfl
  | cons a t ih => simp [ih]

theorem find?_map_own {α β : Type} (f : α → β) (p : β → Bool) (l : List α) :
    (l.map f).find? p = (l.find? (fun a => p (f a))).map f := by
  induction l with
  | nil => rfl
  | cons a t ih =>
    by_cases hp : p (f a) = true
    · simp [List.find?, hp]
    · have hp2 : p (f a) = false := by simpa using hp
      simp [List.find?, hp2, ih]

theorem flatMap_congr_own {α β : Type} (f g : α → List β) (l : List α)
    (h : ∀ x ∈ l, f x = g x) : l.flatMap f = l.flatMap g := by
  induction l with
  | nil => rfl
  | cons a t ih =>
    simp only [List.flatMap_cons]
    rw [h a (List.mem_cons_self a t), ih (fun x hx => h x (List.mem_cons_of_mem _ hx))]

theorem getD_append_self_length {α : Type} (xs : List α) (x d : α) :
    (xs ++ [x]).getD xs.length d = x := by
  induction xs with
  | nil => rfl
  | cons a t ih => simp [ih]

theorem countP_le_one_of_nodup_map {α : Type} (f : α → Cell) (xs : List α) (x : Cell)
    (h : (xs.map f).Nodup) : xs.countP (fun r => f r == x) ≤ 1 := by
  have h2 := List.nodup_iff_count_le_one.mp h x
  simpa [List.count, List.countP_map, Function.comp] using h2

theorem getD_mem {α : Type} (xs : List α) (i : Nat) (d : α) (h : i < xs.length) :
    xs.getD i d ∈ xs := by
  rw [List.getD_eq_getElem?_getD, List.getElem?_eq_getElem h]
  exact List.getElem_mem h

theorem getD_map_lt {α β : Type} (f : α → β) (xs : List α) (i : Nat) (d : β) (d2 : α)
    (h : i < xs.length) : (xs.map f).getD i d = f (xs.getD i d2) := by
  induction xs generalizing i with
  | nil => simp at h
  | cons a t ih =>
    cases i with
    | zero => rfl
    | succ j =>
      have : j < t.length := by simpa using h
      simpa using ih j this

theorem mapM_except_ok {α β : Type} (f : α → Except String β) (g : α → β) (xs : List α)
    (h : ∀ x ∈ xs, f x = Except.ok (g x)) : xs.mapM f = Except.ok (xs.map g) := by
  induction xs with
  | nil => rfl
  | cons a t ih =>
    rw [List.mapM_cons, h a (List.mem_cons_self a t),
      ih (fun x hx => h x (List.mem_cons_of_mem _ hx))]
    rfl

/-! ## Column-index lemmas -/

theorem colIdx_spec (cols : List String) (name : String) :
    ∀ i, colIdx cols name = some i → i < cols.length ∧ cols.getD i "" = name := by
  induction cols with
  | nil => intro i h; exact Option.noConfusion h
  | cons c t ih =>
    intro i h
    rw [colIdx] at h
    by_cases hc : (c == name) = true
    · rw [if_pos hc] at h
      cases h
      exact ⟨Nat.succ_pos _, by simpa using hc⟩
    · rw [if_neg hc] at h
      obtain ⟨j, hj, hji⟩ := Option.map_eq_some'.mp h
      obtain ⟨hlt, hgd⟩ := ih j hj
      subst hji
      exact ⟨by simpa using hlt, by simpa using hgd⟩

theorem colIdx_eq_none_iff (cols : List String) (name : String) :
    colIdx cols name = none ↔ ¬ name ∈ cols := by
  induction cols with
  | nil => simp [colIdx]
  | cons c t ih =>
    rw [colIdx]
    by_cases hc : (c == name) = true
    · have : c = name := by simpa using hc
      simp [hc, this]
    · have hcn : ¬ c = name := by simpa using hc
      rw [if_neg hc]
      simp only [Option.map_eq_none', ih, List.mem_cons]
      constructor
      · intro h hor
        rcases hor with h1 | h2
        · exact hcn h1.symm
        · exact h h2
      · intro h ht
        exact h (Or.inr ht)

theorem colIdx_isSome_of_mem (cols : List String) (name : String) (h : name ∈ cols) :
    ∃ i, colIdx cols name = some i := by
  cases hc : colIdx cols name with
  | none => exact absurd h ((colIdx_eq_none_iff cols name).mp hc)
  | some i => exact ⟨i, rfl⟩

/-! ## setCol and getCol lemmas -/

theorem rGet_eq (cols : List String) (row : List Cell) (name : String) (i : Nat)
    (h : colIdx cols name = some i) : rGet cols row name = row.getD i Cell.null := by
  rw [rGet, h]

theorem setCol_rowmap_eq (cols : List String) (rows : List (List Cell)) (col : String)
    (i : Nat) (g : List Cell → Cell) (h : colIdx cols col = some i) :
    (DataFrame.mk cols rows).setCol col (rows.map g)
      = ⟨cols, rows.map (fun r => r.set i (g r))⟩ := by
  rw [DataFrame.setCol]
  simp only [h]
  rw [zipWith_map_same]

theorem setCol_map_eq (df : DataFrame) (col : String) (f : Cell → Cell) (i : Nat)
    (h : colIdx df.cols col = some i) :
    df.setCol col ((df.getCol col).map f)
      = ⟨df.cols, df.rows.map (fun r => r.set i (f (r.getD i Cell.null)))⟩ := by
  rw [DataFrame.setCol, DataFrame.getCol]
  simp only [h, List.map_map]
  rw [zipWith_map_same]
  rfl

theorem getCol_mapped_ne (cols : List String) (rows : List (List Cell)) (i : Nat)
    (g : List Cell → Cell) (name : String) (hne : cols.getD i "" ≠ name) :
    (DataFrame.mk cols (rows.map (fun r => r.set i (g r)))).getCol name
      = (DataFrame.mk cols rows).getCol name := by
  rw [DataFrame.getCol, DataFrame.getCol]
  cases hj : colIdx cols name with
  | none => rfl
  | some j =>
    have hspec := colIdx_spec cols name j hj
    have hij : i ≠ j := fun he => hne (he ▸ hspec.2)
    simp only [List.map_map]
    refine List.map_eq_map_iff.mpr ?_
    intro r hr
    exact getD_set_ne r i j (g r) Cell.null hij

theorem getCol_set_map_self (df : DataFrame) (col : String) (f : Cell → Cell) (i : Nat)
    (h : colIdx df.cols col = some i) (hf : f Cell.null = Cell.null) :
    (DataFrame.mk df.cols
       (df.rows.map (fun r => r.set i (f (r.getD i Cell.null))))).getCol col
      = (df.getCol col).map f := by
  rw [DataFrame.getCol, DataFrame.getCol]
  simp only [h, List.map_map]
  refine List.map_eq_map_iff.mpr ?_
  intro r hr
  simp only [Function.comp_apply]
  by_cases hlen : i < r.length
  · exact getD_set_self r i (f (r.getD i Cell.null)) Cell.null hlen
  · have hle : r.length ≤ i := Nat.le_of_not_lt hlen
    rw [List.set_eq_of_length_le hle, List.getD_eq_default _ _ hle, hf]

/-! ## Cast-hook fold lemmas -/

theorem toDatetime_null (parse : Cell → Option Int) : toDatetime parse Cell.null = Cell.null := by
  rw [toDatetime]
  simp

theorem castFold_cols (parse : Cell → Option Int) (cs : List String) :
    ∀ df : DataFrame,
      ((cs.foldl (fun acc col =>
        if col ∈ acc.cols then acc.setCol col ((acc.getCol col).map (toDatetime parse))
        else acc) df).cols) = df.cols := by
  induction cs with
  | nil => intro df; rfl
  | cons c rest ih =>
    intro df
    rw [List.foldl_cons, ih]
    by_cases h : c ∈ df.cols
    · obtain ⟨i, hi⟩ := colIdx_isSome_of_mem df.cols c h
      rw [if_pos h, setCol_map_eq df c _ i hi]
    · rw [if_neg h]

theorem castFold_getCol_ne (parse : Cell → Option Int) (cs : List String) :
    ∀ (df : DataFrame) (name : String), ¬ name ∈ cs →
      ((cs.foldl (fun acc col =>
        if col ∈ acc.cols then acc.setCol col ((acc.getCol col).map (toDatetime parse))
        else acc) df).getCol name) = df.getCol name := by
  induction cs with
  | nil => intro df name h; rfl
  | cons c rest ih =>
    intro df name hn
    have hnc : name ≠ c := fun he => hn (he ▸ List.mem_cons_self c rest)
    have hnr : ¬ name ∈ rest := fun hmem => hn (List.mem_cons_of_mem _ hmem)
    rw [List.foldl_cons, ih _ name hnr]
    by_cases h : c ∈ df.cols
    · obtain ⟨i, hi⟩ := colIdx_isSome_of_mem df.cols c h
      rw [if_pos h, setCol_map_eq df c _ i hi]
      have hne : df.cols.getD i "" ≠ name := by
        rw [(colIdx_spec df.cols c i hi).2]
        exact fun he => hnc he.symm
      exact getCol_mapped_ne df.cols df.rows i _ name hne
    · rw [if_neg h]

theorem castFold_absent (parse : Cell → Option Int) (cs : List String) :
    ∀ df : DataFrame, (∀ c ∈ cs, ¬ c ∈ df.cols) →
      (cs.foldl (fun acc col =>
        if col ∈ acc.cols then acc.setCol col ((acc.getCol col).map (toDatetime parse))
        else acc) df) = df := by
  induction cs with
  | nil => intro df _; rfl
  | cons c rest ih =>
    intro df h
    rw [List.foldl_cons, if_neg (h c (List.mem_cons_self c rest))]
    exact ih df (fun x hx => h x (List.mem_cons_of_mem _ hx))

theorem castFold_getCol_mem (parse : Cell → Option Int) (cs : List String) :
    ∀ (df : DataFrame) (col : String), cs.Nodup → col ∈ cs → col ∈ df.cols →
      ((cs.foldl (fun acc col2 =>
        if col2 ∈ acc.cols then acc.setCol col2 ((acc.getCol col2).map (toDatetime parse))
        else acc) df).getCol col) = (df.getCol col).map (toDatetime parse) := by
  induction cs with
  | nil =>
    intro df col _ h _
    simp at h
  | cons c rest ih =>
    intro df col hnd hcs hdf
    have hnd2 := List.nodup_cons.mp hnd
    rw [List.foldl_cons]
    by_cases hcc : col = c
    · subst hcc
      obtain ⟨i, hi⟩ := colIdx_isSome_of_mem df.cols col hdf
      rw [if_pos hdf, setCol_map_eq df col _ i hi,
        castFold_getCol_ne parse rest _ col hnd2.1]
      exact getCol_set_map_self df col _ i hi (toDatetime_null parse)
    · have hcr : col ∈ rest := by
        rcases List.mem_cons.mp hcs with h1 | h2
        · exact absurd h1 hcc
        · exact h2
      by_cases h : c ∈ df.cols
      · obtain ⟨i, hi⟩ := colIdx_isSome_of_mem df.cols c h
        rw [if_pos h, setCol_map_eq df c _ i hi]
        have hne : df.cols.getD i "" ≠ col := by
          rw [(colIdx_spec df.cols c i hi).2]
          exact fun he => hcc he.symm
        have hstep := ih
          ⟨df.cols, df.rows.map (fun r => r.set i (toDatetime parse (r.getD i Cell.null)))⟩
          col hnd2.2 hcr hdf
        rw [hstep, getCol_mapped_ne df.cols df.rows i _ col hne]
      · rw [if_neg h]
        exact ih df col hnd2.2 hcr hdf

/-! ## Merge row-count lemmas -/

theorem mergeRows_length_ge (l r : DataFrame) (lkey rkey : String) (keep : List Nat) :
    l.rows.length ≤ (mergeRows l r lkey rkey keep).length := by
  unfold mergeRows
  refine length_flatMap_ge _ _ ?_
  intro lr hlr
  cases hms : r.rows.filter (fun rr => rGet r.cols rr rkey == rGet l.cols lr lkey) with
  | nil => simp [hms]
  | cons m t => simp [hms]

theorem mergeOn_rowCount_ge (l r : DataFrame) (key : String) :
    l.rowCount ≤ (mergeOn l r key).rowCount :=
  mergeRows_length_ge l r key key (keepIdxsExcept r.cols key)

theorem mergeLR_rowCount_ge (l r : DataFrame) (lkey rkey : String) :
    l.rowCount ≤ (mergeLR l r lkey rkey).rowCount :=
  mergeRows_length_ge l r lkey rkey (List.range r.cols.length)

theorem renameCols_rowCount (df : DataFrame) (m : List (String × String)) :
    (df.renameCols m).rowCount = df.rowCount := rfl

/-! ## Duplicate-column lemmas -/

theorem getD_mem_take (cols : List String) (i j : Nat) (hi : i < cols.length)
    (hij : i < j) : cols.getD i "" ∈ cols.take j := by
  induction cols generalizing i j with
  | nil => simp at hi
  | cons a t ih =>
    cases i with
    | zero =>
      cases j with
      | zero => omega
      | succ j2 => simp
    | succ i2 =>
      cases j with
      | zero => omega
      | succ j2 =>
        have hi2 : i2 < t.length := by simpa using hi
        have hij2 : i2 < j2 := by omega
        have := ih i2 j2 hi2 hij2
        simpa using Or.inr this

theorem nodup_map_getD_of_firstSeen (cols : List String) (ks : List Nat)
    (hmem : ∀ i ∈ ks, i < cols.length ∧ ((cols.take i).contains (cols.getD i "")) = false)
    (hpw : ks.Pairwise (· < ·)) : (ks.map (fun i => cols.getD i "")).Nodup := by
  induction ks with
  | nil => simp
  | cons k t ih =>
    obtain ⟨hk, hpw2⟩ := List.pairwise_cons.mp hpw
    simp only [List.map_cons, List.nodup_cons]
    refine ⟨?_, ih (fun i hi => hmem i (by simp [hi])) hpw2⟩
    intro hbad
    obtain ⟨j, hj, hjk⟩ := List.mem_map.mp hbad
    have hkj : k < j := hk j hj
    have hkprops := hmem k (by simp)
    have hjprops := hmem j (by simp [hj])
    have hmemtake : cols.getD j "" ∈ cols.take j := by
      rw [hjk]
      exact getD_mem_take cols k j hkprops.1 hkj
    have : ((cols.take j).contains (cols.getD j "")) = true := by
      exact List.elem_eq_true_of_mem hmemtake
    rw [hjprops.2] at this
    exact Bool.noConfusion this

theorem dedup_branch_cols_nodup (df : DataFrame)
    (hbase : (duplicateColNames df.cols).isEmpty = true → df.cols.Nodup)
    (hdedup : (dedupKeepFirst df).cols.Nodup) :
    ((if (duplicateColNames df.cols).isEmpty = true then df
      else dedupKeepFirst df).cols).Nodup := by
  split
  · next h => exact hbase h
  · next h => exact hdedup

theorem dedupKeepFirst_cols_nodup (df : DataFrame) : (dedupKeepFirst df).cols.Nodup := by
  refine nodup_map_getD_of_firstSeen df.cols _ ?_ ?_
  · intro i hi
    have h := List.mem_filter.mp hi
    refine ⟨List.mem_range.mp h.1, ?_⟩
    simpa using h.2
  · exact List.Pairwise.sublist (List.filter_sublist _) (List.pairwise_lt_range _)

theorem duplicateColNames_empty_nodup (cols : List String)
    (h : (duplicateColNames cols).isEmpty = true) : cols.Nodup := by
  have hmask : dupMaskIdxs cols = [] := by
    cases hc : dupMaskIdxs cols with
    | nil => rfl
    | cons a t =>
      rw [duplicateColNames, hc] at h
      simp at h
  have hall : ∀ i ∈ List.range cols.length,
      ¬ (((cols.take i).contains (cols.getD i "")) = true) := by
    intro i hi
    have := List.filter_eq_nil_iff.mp hmask i hi
    simpa using this
  rw [List.Nodup]
  rw [List.pairwise_iff_getElem]
  intro i j hi hj hij
  intro heq
  have hmemtake : cols.getD j "" ∈ cols.take j := by
    have hgd : cols.getD i "" = cols.getD j "" := by
      rw [List.getD_eq_getElem?_getD, List.getD_eq_getElem?_getD,
        List.getElem?_eq_getElem hi, List.getElem?_eq_getElem hj, heq]
    rw [← hgd]
    exact getD_mem_take cols i j hi hij
  exact hall j (List.mem_range.mpr hj) (List.elem_eq_true_of_mem hmemtake)

/-! ## Claim theorems -/

/-- C2 counterexample: the claim that the join-phase row count always equals
the anchor row count is false.  A one-row orders table joined with two order
lines of that order yields two rows: the one-to-many order-lines join
multiplies anchor rows. -/
theorem ordersFact_join_multiplies_rows_cex :
    ordersEx.rowCount = 1 ∧
    (buildOrdersFact ordersEx customersEx peopleEx orderLinesEx).rowCount = 2 := by
  constructor
  · rfl
  · decide

/-- C2 as amended: left joins never drop anchor rows, so the row count after
every Gold assembler join phase is at least the anchor row count (shown here
for both cited assemblers: the orders fact and the customer dimension); a
join key with several matches can multiply rows, so equality does not hold
in general. -/
theorem gold_join_keeps_anchor_rows :
    ∀ orders customers people orderLines custT dms rm ppl : DataFrame,
      orders.rowCount ≤ (buildOrdersFact orders customers people orderLines).rowCount ∧
      custT.rowCount ≤ (buildCustomerDimension custT dms rm ppl).rowCount := by
  intro orders customers people orderLines custT dms rm ppl
  constructor
  · show orders.rowCount ≤ (mergeOn _ _ _).rowCount
    refine le_trans ?_ (mergeOn_rowCount_ge _ _ _)
    show orders.rowCount ≤ (mergeLR _ _ _ _).rowCount
    refine le_trans ?_ (mergeLR_rowCount_ge _ _ _ _)
    show orders.rowCount ≤ (mergeLR _ _ _ _).rowCount
    refine le_trans ?_ (mergeLR_rowCount_ge _ _ _ _)
    exact mergeOn_rowCount_ge _ _ _
  · show custT.rowCount ≤ (mergeLR _ _ _ _).rowCount
    refine le_trans ?_ (mergeLR_rowCount_ge _ _ _ _)
    show custT.rowCount ≤ (mergeLR _ _ _ _).rowCount
    refine le_trans ?_ (mergeLR_rowCount_ge _ _ _ _)
    exact mergeOn_rowCount_ge _ _ _

/-- C8 counterexample: the duplicate-column defense does not hold for every
Gold assembler.  The orders-fact join phase, fed an orders table carrying a
duplicated label, hands a table with a duplicated column name on to column
selection: nothing in that assembler drops duplicates or logs them. -/
theorem ordersFact_duplicate_columns_not_dropped_cex :
    (duplicateColNames (buildOrdersFact ordersDup customersEx peopleEx orderLinesEx).cols)
      = ["comment"] ∧
    ¬ ((buildOrdersFact ordersDup customersEx peopleEx orderLinesEx).cols.Nodup) := by
  constructor
  · decide
  · decide

/-- C8 as amended: only the purchases-fact assembler carries the
duplicate-column defense; there, for every input, the table handed on to
column selection has pairwise-distinct column names (the first occurrence of
each label is kept). -/
theorem purchasesFact_dedup_columns_nodup :
    ∀ purchases people purchaseOrderLines : DataFrame,
      ((buildPurchasesFact purchases people purchaseOrderLines).cols).Nodup := by
  intro p pe pol
  exact dedup_branch_cols_nodup _ (duplicateColNames_empty_nodup _) (dedupKeepFirst_cols_nodup _)

/-- C9: the generic dimension cast hook touches only the renamed names of the
configured date columns (all other columns are returned unchanged and the
column list is preserved); a configured date column whose renamed name is not
in the frame is skipped silently (when none are present the frame is returned
untouched), and for present columns every cell is mapped through the
coercion, under which a value that fails to parse becomes null instead of
raising. -/
theorem castDtypes_renamed_date_columns_only (parse : Cell → Option Int)
    (config : DimensionConfigEntry) (df : DataFrame)
    (hnd : (dateColsRenamed config).Nodup) :
    (castDtypesDim parse config df).cols = df.cols ∧
    (∀ name, ¬ name ∈ dateColsRenamed config →
      (castDtypesDim parse config df).getCol name = df.getCol name) ∧
    ((∀ c ∈ dateColsRenamed config, ¬ c ∈ df.cols) → castDtypesDim parse config df = df) ∧
    (∀ c ∈ dateColsRenamed config, c ∈ df.cols →
      (castDtypesDim parse config df).getCol c = (df.getCol c).map (toDatetime parse)) ∧
    (∀ v : Cell, parse v = none → toDatetime parse v = Cell.null) := by
  refine ⟨castFold_cols parse _ df,
    fun name hn => castFold_getCol_ne parse _ df name hn,
    fun h => castFold_absent parse _ df h,
    fun c hc hdf => castFold_getCol_mem parse _ df c hnd hc hdf, ?_⟩
  intro v hv
  rw [toDatetime]
  by_cases h : v = Cell.null
  · simp [h]
  · simp [h, hv]

/-- Witness for C9 at concrete inputs: the parsable cell becomes a date, the
malformed cell becomes null, the absent renamed date column ValidTo is
skipped, and the name column is untouched. -/
theorem castDtypes_renamed_date_columns_only_w :
    (castDtypesDim parseDateEx dimConfigEx dimFrameEx).getCol ("valid_from")
      = [Cell.date 1357, Cell.null] ∧
    (castDtypesDim parseDateEx dimConfigEx dimFrameEx).getCol ("full_name")
      = dimFrameEx.getCol ("full_name") ∧
    (castDtypesDim parseDateEx dimConfigEx dimFrameEx).cols = dimFrameEx.cols := by
  have h := castDtypes_renamed_date_columns_only parseDateEx dimConfigEx dimFrameEx (by decide)
  refine ⟨?_, h.2.1 ("full_name") (by decide), h.1⟩
  rw [h.2.2.2.1 ("valid_from") (by decide) (by decide)]
  decide

/-- C3: the two run() variants handle failure asymmetrically.  For the
Bronze-to-Silver run, an empty load logs an error and returns without
writing and without raising; for the Silver-to-Gold run, an empty transform
result likewise aborts without writing, while an exception raised during
transform() is logged and then re-raised to the caller. -/
theorem silver_gold_run_asymmetry (filename : String) (hf : filename ≠ "")
    (loaded : DataFrame) (trS : DataFrame → Except String DataFrame)
    (trG : Except String DataFrame) :
    (loaded.isEmpty = true →
      silverRun filename loaded trS
        = ([LogEntry.err ("[RUN] Aborting - empty DataFrame after load")], Except.ok none)) ∧
    (∀ df, trG = Except.ok df → df.isEmpty = true →
      goldRun filename trG
        = ([LogEntry.err ("[RUN] Aborting - empty DataFrame after transform")], Except.ok none)) ∧
    (∀ e, trG = Except.error e →
      goldRun filename trG
        = ([LogEntry.err ("[RUN] Error during transformation: " ++ e)], Except.error e)) := by
  refine ⟨fun hempty => ?_, fun df hdf hempty => ?_, fun e he => ?_⟩
  · simp [silverRun, hf, hempty]
  · subst hdf
    simp [goldRun, hf, hempty]
  · subst he
    simp [goldRun, hf]

/-- Witness for C3 at concrete inputs: an empty load aborts the silver run
cleanly, and a gold transform error is logged and re-raised. -/
theorem silver_gold_run_asymmetry_w :
    silverRun ("orders.parquet") ⟨[], []⟩ (fun df => Except.ok df)
      = ([LogEntry.err ("[RUN] Aborting - empty DataFrame after load")], Except.ok none) ∧
    goldRun ("dim_customer.parquet") (Except.error ("KeyError"))
      = ([LogEntry.err ("[RUN] Error during transformation: " ++ "KeyError")],
          Except.error ("KeyError")) := by
  constructor
  · exact (silver_gold_run_asymmetry ("orders.parquet") (by decide) ⟨[], []⟩
      (fun df => Except.ok df) (Except.ok ⟨[], []⟩)).1 (by decide)
  · exact ((silver_gold_run_asymmetry ("dim_customer.parquet") (by decide) ⟨[], []⟩
      (fun df => Except.ok df) (Except.error ("KeyError"))).2.2) ("KeyError") rfl

/-- C4 (code bug): constructing DimensionTransformer with a name that IS
present in the configuration still raises, because the class never implements
the abstract method run it inherits from BaseTransformer(ABC); Python raises
TypeError before __init__ can execute its unknown-name check, contradicting
run_all.py which instantiates DimensionTransformer for every configured
name. -/
theorem dimensionTransformer_construction_always_raises :
    (dimensionsConfigSample.lookup ("colors")).isSome = true ∧
    dimensionTransformerNew dimensionsConfigSample ("colors")
      = Except.error
        ("TypeError: cannot instantiate abstract class DimensionTransformer with abstract method run") ∧
    (∀ config name, dimensionTransformerNew config name
      = Except.error
        ("TypeError: cannot instantiate abstract class DimensionTransformer with abstract method run")) := by
  refine ⟨by decide, rfl, fun config name => rfl⟩

/-- C5: the validate-nulls stage is purely observational.  Both the base
validator and the generic dimension null hook return the frame unchanged; a
required column containing nulls only produces a warning log line (never an
error), and a non-empty frame still saves afterwards. -/
theorem validate_nulls_observational (df : DataFrame)
    (expectedNulls : List (String × String)) (requiredColumns : List String) :
    (validateNulls df expectedNulls requiredColumns).2 = df ∧
    (handleNulls df).2 = df ∧
    (∀ c ∈ requiredColumns, 0 < nullCountCol df c →
      LogEntry.warn ("[NULLS] Unexpected nulls in " ++ c)
        ∈ (validateNulls df expectedNulls requiredColumns).1) ∧
    (∀ s, LogEntry.err s ∉ (validateNulls df expectedNulls requiredColumns).1) ∧
    (df.isEmpty = false →
      (saveParquet (validateNulls df expectedNulls requiredColumns).2).2 = some df) := by
  refine ⟨rfl, rfl, ?_, ?_, ?_⟩
  · intro c hc hnull
    simp only [validateNulls, List.mem_append]
    right
    refine List.mem_map.mpr ⟨c, hc, ?_⟩
    simp [hnull]
  · intro s hmem
    simp only [validateNulls, List.mem_append] at hmem
    rcases hmem with h1 | h2
    · rcases List.mem_map.mp h1 with ⟨p, _, hp⟩
      exact LogEntry.noConfusion hp
    · rcases List.mem_map.mp h2 with ⟨c, _, hp⟩
      by_cases hnull : 0 < nullCountCol df c
      · simp [hnull] at hp
      · simp [hnull] at hp
  · intro hne
    show (saveParquet df).2 = some df
    simp [saveParquet, hne]

/-- Witness for C5: a one-column table whose required column contains a null
is returned unchanged, produces the warning, and still saves. -/
theorem validate_nulls_observational_w :
    (validateNulls ⟨["order_id"], [[Cell.null]]⟩ [] (["order_id"])).2
      = ⟨["order_id"], [[Cell.null]]⟩ ∧
    LogEntry.warn ("[NULLS] Unexpected nulls in " ++ "order_id")
      ∈ (validateNulls ⟨["order_id"], [[Cell.null]]⟩ [] (["order_id"])).1 ∧
    (saveParquet (validateNulls ⟨["order_id"], [[Cell.null]]⟩ [] (["order_id"])).2).2
      = some ⟨["order_id"], [[Cell.null]]⟩ := by
  have h := validate_nulls_observational ⟨["order_id"], [[Cell.null]]⟩ [] (["order_id"])
  refine ⟨h.1, ?_, h.2.2.2.2 (by decide)⟩
  exact h.2.2.1 ("order_id") (by decide) (by decide)

/-- C7: the orchestrator attempts every transform in order even when earlier
ones raise, records each failure by name, never raises itself (it is a total
function), and reports as succeeded exactly the transforms whose run
returned without raising; in particular with three transforms where only the
second raises, all three are attempted and the tally is 2 of 3 with the
failed transform named. -/
theorem orchestrator_failure_isolation :
    ∀ ts : List (String × Except String Unit),
      (runTransformers ts).1 = ts.map Prod.fst ∧
      (runTransformers ts).2 = (ts.filter (fun t => runFailed t.2)).map Prod.fst ∧
      waveSucceededCount ts = (ts.filter (fun t => ! runFailed t.2)).length ∧
      runTransformers
          [("OrderTransformer", Except.ok ()), ("CustomerTransformer", Except.error ("boom")),
           ("InvoiceTransformer", Except.ok ())]
        = (["OrderTransformer", "CustomerTransformer", "InvoiceTransformer"],
           ["CustomerTransformer"]) ∧
      waveSucceededCount
          [("OrderTransformer", Except.ok ()), ("CustomerTransformer", Except.error ("boom")),
           ("InvoiceTransformer", Except.ok ())]
        = 2 := by
  have hmain : ∀ ts : List (String × Except String Unit),
      (runTransformers ts).1 = ts.map Prod.fst ∧
      (runTransformers ts).2 = (ts.filter (fun t => runFailed t.2)).map Prod.fst := by
    intro ts
    induction ts with
    | nil => exact ⟨rfl, rfl⟩
    | cons t rest ih =>
      obtain ⟨n, res⟩ := t
      cases res with
      | ok u => simpa [runTransformers, runFailed, List.filter_cons] using ih
      | error e => simpa [runTransformers, runFailed, List.filter_cons] using ih
  intro ts
  refine ⟨(hmain ts).1, (hmain ts).2, ?_, by decide, by decide⟩
  have hlen : (runTransformers ts).2.length
      = (ts.filter (fun t => runFailed t.2)).length := by
    rw [(hmain ts).2, List.length_map]
  have hsplit := length_filter_not_add_length_filter (fun t => runFailed t.2) ts
  simp only [waveSucceededCount, hlen]
  omega

/-! ## Credit-limit imputation (C1, C10) -/

theorem rGet_cc_cid (r : List Cell) :
    rGet dimCustomerSelectedColumns r ("customer_id") = r.getD 0 Cell.null := rfl

theorem rGet_cc_bill (r : List Cell) :
    rGet dimCustomerSelectedColumns r ("bill_to_customer_id") = r.getD 7 Cell.null := rfl

theorem rGet_cc_credit (r : List Cell) :
    rGet dimCustomerSelectedColumns r ("credit_limit") = r.getD 8 Cell.null := rfl

theorem rGet_mcc_bill (r : List Cell) :
    rGet (["bill_to_customer_id", "parent_credit_limit"]) r ("bill_to_customer_id")
      = r.getD 0 Cell.null := rfl

theorem parentCredit_eq (rows : List (List Cell)) (lr : List Cell) :
    parentCredit rows lr
      = (match rows.find? (fun r => r.getD 0 Cell.null == lr.getD 7 Cell.null) with
         | some pr => pr.getD 8 Cell.null
         | none => Cell.null) := rfl

theorem creditMerge_rows (rows : List (List Cell))
    (hids : (rows.map (fun r => r.getD 0 Cell.null)).Nodup) :
    mergeRows ⟨dimCustomerSelectedColumns, rows⟩
      ⟨["bill_to_customer_id", "parent_credit_limit"],
       rows.map (fun r => [r.getD 0 Cell.null, r.getD 8 Cell.null])⟩
      ("bill_to_customer_id") ("bill_to_customer_id") ([1])
      = rows.map (fun lr => lr ++ [parentCredit rows lr]) := by
  rw [mergeRows]
  conv_rhs => rw [← flatMap_singleton_eq_map]
  apply flatMap_congr_own
  intro lr hlr
  simp only [rGet_mcc_bill, rGet_cc_bill]
  have hcnt : (rows.map (fun r => [r.getD 0 Cell.null, r.getD 8 Cell.null])).countP
      (fun rr => rr.getD 0 Cell.null == lr.getD 7 Cell.null) ≤ 1 := by
    rw [List.countP_map]
    exact countP_le_one_of_nodup_map (fun r => r.getD 0 Cell.null) rows
      (lr.getD 7 Cell.null) hids
  rw [filter_eq_find_toList _ _ hcnt, find?_map_own]
  rw [parentCredit_eq]
  simp only [List.getD_eq_getElem?_getD]
  cases hfind : rows.find? (fun a => (a[0]?).getD Cell.null == (lr[7]?).getD Cell.null) with
  | none =>
    simp [hfind]
  | some pr =>
    simp [hfind]

theorem creditMerge_eq (rows : List (List Cell))
    (hids : (rows.map (fun r => r.getD 0 Cell.null)).Nodup) :
    mergeOn ⟨dimCustomerSelectedColumns, rows⟩
      (((⟨dimCustomerSelectedColumns, rows⟩ : DataFrame).select
          (["customer_id", "credit_limit"])).renameCols
        ([("customer_id", "bill_to_customer_id"), ("credit_limit", "parent_credit_limit")]))
      ("bill_to_customer_id")
      = ⟨dimCustomerSelectedColumns ++ ["parent_credit_limit"],
         rows.map (fun lr => lr ++ [parentCredit rows lr])⟩ := by
  have hsel : ((⟨dimCustomerSelectedColumns, rows⟩ : DataFrame).select
      (["customer_id", "credit_limit"])).renameCols
        ([("customer_id", "bill_to_customer_id"), ("credit_limit", "parent_credit_limit")])
      = ⟨["bill_to_customer_id", "parent_credit_limit"],
         rows.map (fun r => [r.getD 0 Cell.null, r.getD 8 Cell.null])⟩ := rfl
  rw [hsel]
  exact congrArg
    (fun rr => DataFrame.mk (dimCustomerSelectedColumns ++ ["parent_credit_limit"]) rr)
    (creditMerge_rows rows hids)

theorem imputeCreditLimit_eq (rows : List (List Cell))
    (hwf : ∀ r ∈ rows, r.length = 25)
    (hids : (rows.map (fun r => r.getD 0 Cell.null)).Nodup) :
    imputeCreditLimit ⟨dimCustomerSelectedColumns, rows⟩
      = ⟨dimCustomerSelectedColumns,
         rows.map (fun lr => lr.set 8 (creditFill rows lr))⟩ := by
  have hcredit : (DataFrame.mk (dimCustomerSelectedColumns ++ ["parent_credit_limit"])
      (rows.map (fun lr => lr ++ [parentCredit rows lr]))).getCol ("credit_limit")
      = rows.map (fun lr => lr.getD 8 Cell.null) := by
    have h0 : (DataFrame.mk (dimCustomerSelectedColumns ++ ["parent_credit_limit"])
        (rows.map (fun lr => lr ++ [parentCredit rows lr]))).getCol ("credit_limit")
        = (rows.map (fun lr => lr ++ [parentCredit rows lr])).map
            (fun r => r.getD 8 Cell.null) := rfl
    rw [h0, List.map_map]
    refine List.map_eq_map_iff.mpr ?_
    intro r hr
    have hlen : r.length = 25 := hwf r hr
    simp only [Function.comp_apply]
    exact getD_append_left r _ 8 Cell.null (by omega)
  have hparent : (DataFrame.mk (dimCustomerSelectedColumns ++ ["parent_credit_limit"])
      (rows.map (fun lr => lr ++ [parentCredit rows lr]))).getCol ("parent_credit_limit")
      = rows.map (fun lr => parentCredit rows lr) := by
    have h0 : (DataFrame.mk (dimCustomerSelectedColumns ++ ["parent_credit_limit"])
        (rows.map (fun lr => lr ++ [parentCredit rows lr]))).getCol ("parent_credit_limit")
        = (rows.map (fun lr => lr ++ [parentCredit rows lr])).map
            (fun r => r.getD 25 Cell.null) := rfl
    rw [h0, List.map_map]
    refine List.map_eq_map_iff.mpr ?_
    intro r hr
    have hlen : r.length = 25 := hwf r hr
    simp only [Function.comp_apply]
    rw [← hlen]
    exact getD_append_self_length r _ Cell.null
  have hfill : seriesFillnaMean
      (seriesFillna (rows.map (fun lr => lr.getD 8 Cell.null))
        (rows.map (fun lr => parentCredit rows lr)))
      (meanCells (rows.map (fun lr => lr.getD 8 Cell.null)))
      = rows.map (fun lr => creditFill rows lr) := by
    rw [seriesFillna, zipWith_map_both]
    cases hm : meanCells (rows.map (fun lr => lr.getD 8 Cell.null)) with
    | none =>
      rw [seriesFillnaMean]
      refine List.map_eq_map_iff.mpr ?_
      intro r hr
      rw [creditFill]
      simp only [hm]
    | some q =>
      rw [seriesFillnaMean, List.map_map]
      refine List.map_eq_map_iff.mpr ?_
      intro r hr
      rw [creditFill]
      simp only [hm, Function.comp_apply]
  have hset : (DataFrame.mk (dimCustomerSelectedColumns ++ ["parent_credit_limit"])
      (rows.map (fun lr => lr ++ [parentCredit rows lr]))).setCol ("credit_limit")
      (rows.map (fun lr => creditFill rows lr))
      = ⟨dimCustomerSelectedColumns ++ ["parent_credit_limit"],
         rows.map (fun lr => lr.set 8 (creditFill rows lr) ++ [parentCredit rows lr])⟩ := by
    have h0 : (DataFrame.mk (dimCustomerSelectedColumns ++ ["parent_credit_limit"])
        (rows.map (fun lr => lr ++ [parentCredit rows lr]))).setCol ("credit_limit")
        (rows.map (fun lr => creditFill rows lr))
        = ⟨dimCustomerSelectedColumns ++ ["parent_credit_limit"],
           List.zipWith (fun r v => r.set 8 v)
             (rows.map (fun lr => lr ++ [parentCredit rows lr]))
             (rows.map (fun lr => creditFill rows lr))⟩ := rfl
    rw [h0, zipWith_map_both]
    refine congrArg _ (List.map_eq_map_iff.mpr ?_)
    intro r hr
    have hlen : r.length = 25 := hwf r hr
    exact set_append_left r _ 8 _ (by omega)
  have hdrop : (DataFrame.mk (dimCustomerSelectedColumns ++ ["parent_credit_limit"])
      (rows.map (fun lr => lr.set 8 (creditFill rows lr) ++ [parentCredit rows lr]))).dropCol
        ("parent_credit_limit")
      = ⟨dimCustomerSelectedColumns,
         rows.map (fun lr => lr.set 8 (creditFill rows lr))⟩ := by
    have hkeep : (List.range (dimCustomerSelectedColumns ++ ["parent_credit_limit"]).length).filter
        (fun i => ! ((dimCustomerSelectedColumns ++ ["parent_credit_limit"]).getD i ""
          == "parent_credit_limit"))
        = List.range 25 := by decide
    rw [DataFrame.dropCol]
    simp only [hkeep]
    refine congrArg₂ DataFrame.mk (by decide) ?_
    rw [List.map_map]
    refine List.map_eq_map_iff.mpr ?_
    intro r hr
    have hlen : r.length = 25 := hwf r hr
    have hlen2 : (r.set 8 (creditFill rows r)).length = 25 := by
      rw [List.length_set]
      exact hlen
    simp only [Function.comp_apply]
    have hstep : (List.range 25).map
        (fun i => (r.set 8 (creditFill rows r) ++ [parentCredit rows r]).getD i Cell.null)
        = (List.range 25).map (fun i => (r.set 8 (creditFill rows r)).getD i Cell.null) := by
      refine List.map_eq_map_iff.mpr ?_
      intro i hi
      have hi2 : i < 25 := List.mem_range.mp hi
      exact getD_append_left _ _ i Cell.null (by omega)
    rw [hstep]
    exact map_getD_range_eq_self _ 25 Cell.null hlen2
  simp only [imputeCreditLimit]
  rw [creditMerge_eq rows hids, hcredit, hparent, hfill, hset, hdrop]

theorem creditFill_eq_creditRule (rows : List (List Cell)) (lr : List Cell) :
    creditFill rows lr = creditRule rows lr := by
  rw [creditFill, creditRule]
  simp only [rGet_cc_credit, rGet_cc_cid, List.getD_eq_getElem?_getD]
  by_cases hc : (lr[8]?).getD Cell.null = Cell.null
  · by_cases hpc : parentCredit rows lr = Cell.null
    · cases hm : meanCells (rows.map (fun r => (r[8]?).getD Cell.null)) with
      | none => simp [hc, hpc, hm]
      | some q => simp [hc, hpc, hm]
    · cases hm : meanCells (rows.map (fun r => (r[8]?).getD Cell.null)) with
      | none => simp [hc, hpc, hm]
      | some q => simp [hc, hpc, hm]
  · cases hm : meanCells (rows.map (fun r => (r[8]?).getD Cell.null)) with
    | none => simp [hc, hm]
    | some q => simp [hc, hm]

/-- C1 counterexample: the fallback mean is NOT computed after the parent-fill
pass.  On four customers with credit limits 100, 200, null (child of the
first) and null (no parent), the code imputes 150 for the last row: the mean
of the column before the parent fill; the claim's after-parent-fill mean over
the same input is 400/3 ≠ 150. -/
theorem creditLimit_mean_before_parent_fill_cex :
    (imputeCreditLimit ⟨dimCustomerSelectedColumns, creditRowsEx⟩).getCol ("credit_limit")
      = [Cell.num 100, Cell.num 200, Cell.num 100, Cell.num 150] ∧
    meanCells (seriesFillna
        ((⟨dimCustomerSelectedColumns, creditRowsEx⟩ : DataFrame).getCol ("credit_limit"))
        (creditRowsEx.map (fun lr => parentCredit creditRowsEx lr)))
      = some (mkRat 400 3) ∧
    Cell.num 150 ≠ Cell.num (mkRat 400 3) := by
  refine ⟨by decide, by decide, by decide⟩

/-- C1 as amended: for input frames with pairwise-distinct customer ids, every
row with a non-null credit limit keeps it; a null credit limit is filled from
the parent record (the row whose customer id equals this row's bill-to id)
when that parent credit limit is non-null; a row still null after the parent
fill receives the mean of the non-null credit limits of the input column,
computed BEFORE the parent-fill pass (so a child with no parent gets the
batch mean of the original non-null credit limits, not of the parent-filled
column). -/
theorem imputeCreditLimit_parent_then_prefill_mean (rows : List (List Cell))
    (hwf : ∀ r ∈ rows, r.length = 25)
    (hids : ((⟨dimCustomerSelectedColumns, rows⟩ : DataFrame).getCol ("customer_id")).Nodup) :
    (imputeCreditLimit ⟨dimCustomerSelectedColumns, rows⟩).getCol ("credit_limit")
      = rows.map (fun lr => creditRule rows lr) := by
  have hids2 : (rows.map (fun r => r.getD 0 Cell.null)).Nodup := hids
  rw [imputeCreditLimit_eq rows hwf hids2]
  have h0 : (DataFrame.mk dimCustomerSelectedColumns
      (rows.map (fun lr => lr.set 8 (creditFill rows lr)))).getCol ("credit_limit")
      = (rows.map (fun lr => lr.set 8 (creditFill rows lr))).map
          (fun r => r.getD 8 Cell.null) := rfl
  rw [h0, List.map_map]
  refine List.map_eq_map_iff.mpr ?_
  intro r hr
  have hlen : r.length = 25 := hwf r hr
  simp only [Function.comp_apply]
  rw [getD_set_self r 8 _ Cell.null (by omega), creditFill_eq_creditRule]

/-- Witness for the amended C1 at the four concrete rows: the characterization
applies, and the computed column is [100, 200, 100 (parent value), 150 (mean
of the original non-null credit limits)]. -/
theorem imputeCreditLimit_parent_then_prefill_mean_w :
    (imputeCreditLimit ⟨dimCustomerSelectedColumns, creditRowsEx⟩).getCol ("credit_limit")
      = creditRowsEx.map (fun lr => creditRule creditRowsEx lr) ∧
    creditRowsEx.map (fun lr => creditRule creditRowsEx lr)
      = [Cell.num 100, Cell.num 200, Cell.num 100, Cell.num 150] := by
  constructor
  · exact imputeCreditLimit_parent_then_prefill_mean creditRowsEx (by decide) (by decide)
  · decide

/-- C10: on an input whose customer ids are pairwise distinct, the
credit-limit imputation preserves the column list (set and order), the row
count, and every cell outside the credit_limit column (position 8): the
self-join neither duplicates nor drops rows and the temporary parent-credit
column is removed before the step returns. -/
theorem imputeCreditLimit_frame_effect (rows : List (List Cell))
    (hwf : ∀ r ∈ rows, r.length = 25)
    (hids : ((⟨dimCustomerSelectedColumns, rows⟩ : DataFrame).getCol ("customer_id")).Nodup) :
    (imputeCreditLimit ⟨dimCustomerSelectedColumns, rows⟩).cols = dimCustomerSelectedColumns ∧
    (imputeCreditLimit ⟨dimCustomerSelectedColumns, rows⟩).rowCount = rows.length ∧
    (∀ i j, j ≠ 8 →
      ((imputeCreditLimit ⟨dimCustomerSelectedColumns, rows⟩).rows.getD i []).getD j Cell.null
        = (rows.getD i []).getD j Cell.null) := by
  have hids2 : (rows.map (fun r => r.getD 0 Cell.null)).Nodup := hids
  rw [imputeCreditLimit_eq rows hwf hids2]
  refine ⟨rfl, by simp [DataFrame.rowCount], ?_⟩
  intro i j hj
  by_cases hi : i < rows.length
  · rw [getD_map_lt _ rows i [] [] hi]
    exact getD_set_ne _ 8 j _ Cell.null (fun he => hj he.symm)
  · have hle : rows.length ≤ i := Nat.le_of_not_lt hi
    have h1 : (rows.map (fun lr => lr.set 8 (creditFill rows lr))).getD i [] = [] := by
      refine List.getD_eq_default _ _ ?_
      simpa using hle
    rw [h1, List.getD_eq_default _ _ hle]

/-- Witness for C10 at the four concrete rows: columns and row count are
preserved, and a cell outside the credit column (the bill-to id of the third
row) is unchanged. -/
theorem imputeCreditLimit_frame_effect_w :
    (imputeCreditLimit ⟨dimCustomerSelectedColumns, creditRowsEx⟩).cols
      = dimCustomerSelectedColumns ∧
    (imputeCreditLimit ⟨dimCustomerSelectedColumns, creditRowsEx⟩).rowCount = 4 ∧
    ((imputeCreditLimit ⟨dimCustomerSelectedColumns, creditRowsEx⟩).rows.getD 2 []).getD 7
        Cell.null = Cell.num 1 := by
  have h := imputeCreditLimit_frame_effect creditRowsEx (by decide) (by decide)
  refine ⟨h.1, h.2.1, ?_⟩
  rw [h.2.2 2 7 (by decide)]
  decide

/-! ## Contact-info imputation (C6) -/

theorem emailRule_set2 (r : List Cell) (a : Cell) :
    emailRule dimCustomerSelectedColumns (r.set 2 a)
      = emailRule dimCustomerSelectedColumns r := by
  have hemail : colIdx dimCustomerSelectedColumns ("email_address") = some 3 := by decide
  have hcust : colIdx dimCustomerSelectedColumns ("customer_name") = some 1 := by decide
  rw [emailRule, emailRule,
    rGet_eq _ _ _ 3 hemail, rGet_eq _ _ _ 1 hcust,
    rGet_eq _ _ _ 3 hemail, rGet_eq _ _ _ 1 hcust,
    getD_set_ne r 2 3 a Cell.null (by omega), getD_set_ne r 2 1 a Cell.null (by omega)]

theorem imputeContactInfo_eq (df df1 : DataFrame)
    (h1 : df.setCol ("full_name") ((df.getCol ("full_name")).map fillHeadOffice) = df1)
    (emails : List Cell)
    (h2 : df1.rows.mapM (fun r => imputeEmailRow df1.cols r) = Except.ok emails) :
    imputeContactInfo df = Except.ok (df1.setCol ("email_address") emails) := by
  unfold imputeContactInfo
  simp only [h1, h2]

/-- C6: in the contact imputation, every row with a null contact full name
receives the fixed sentinel label, every row with a null email address
receives the address synthesized deterministically from that row's customer
name (suffix token stripped, spaces removed, lower-cased, wrapped in info@
and .com), rows with a non-null email keep it unchanged, and no other cell
changes.  Determinism over reruns is immediate: the step is a pure function
of the input frame, so this characterization fixes its output uniquely. -/
theorem impute_contact_info_char (rows : List (List Cell))
    (hwf : ∀ r ∈ rows, r.length = 25)
    (hname : ∀ r ∈ rows, r.getD 3 Cell.null = Cell.null →
      ∃ s, r.getD 1 Cell.null = Cell.str s) :
    ∃ out : DataFrame,
      imputeContactInfo ⟨dimCustomerSelectedColumns, rows⟩ = Except.ok out ∧
      out.cols = dimCustomerSelectedColumns ∧
      out.rows.length = rows.length ∧
      (∀ i, i < rows.length →
        ((out.rows.getD i []).getD 2 Cell.null
          = (if (rows.getD i []).getD 2 Cell.null = Cell.null then Cell.str ("Head Office")
             else (rows.getD i []).getD 2 Cell.null)) ∧
        ((out.rows.getD i []).getD 3 Cell.null
          = emailRule dimCustomerSelectedColumns (rows.getD i [])) ∧
        (∀ j, j ≠ 2 → j ≠ 3 →
          (out.rows.getD i []).getD j Cell.null = (rows.getD i []).getD j Cell.null)) := by
  have hfull : colIdx dimCustomerSelectedColumns ("full_name") = some 2 := by decide
  have hemail : colIdx dimCustomerSelectedColumns ("email_address") = some 3 := by decide
  have hcust : colIdx dimCustomerSelectedColumns ("customer_name") = some 1 := by decide
  have hmapm : (rows.map (fun r => r.set 2 (fillHeadOffice (r.getD 2 Cell.null)))).mapM
      (fun r => imputeEmailRow dimCustomerSelectedColumns r)
      = Except.ok ((rows.map (fun r => r.set 2 (fillHeadOffice (r.getD 2 Cell.null)))).map
          (fun r => emailRule dimCustomerSelectedColumns r)) := by
    apply mapM_except_ok
    intro r2 hr2
    obtain ⟨r, hr, hre⟩ := List.mem_map.mp hr2
    subst hre
    rw [imputeEmailRow, emailRule,
      rGet_eq _ _ _ 3 hemail, rGet_eq _ _ _ 1 hcust,
      getD_set_ne r 2 3 _ Cell.null (by omega),
      getD_set_ne r 2 1 _ Cell.null (by omega)]
    by_cases he : r.getD 3 Cell.null = Cell.null
    · obtain ⟨s, hs⟩ := hname r hr he
      have he2 : r[3]?.getD Cell.null = Cell.null := by
        simpa [List.getD_eq_getElem?_getD] using he
      have hs2 : r[1]?.getD Cell.null = Cell.str s := by
        simpa [List.getD_eq_getElem?_getD] using hs
      simp [he2, hs2]
    · have he2 : ¬ r[3]?.getD Cell.null = Cell.null := by
        simpa [List.getD_eq_getElem?_getD] using he
      simp [he2]
  refine ⟨⟨dimCustomerSelectedColumns,
    (rows.map (fun r => r.set 2 (fillHeadOffice (r.getD 2 Cell.null)))).map
      (fun r => r.set 3 (emailRule dimCustomerSelectedColumns r))⟩, ?_, rfl, ?_, ?_⟩
  · rw [imputeContactInfo_eq ⟨dimCustomerSelectedColumns, rows⟩
      ⟨dimCustomerSelectedColumns,
        rows.map (fun r => r.set 2 (fillHeadOffice (r.getD 2 Cell.null)))⟩
      (setCol_map_eq _ _ _ 2 hfull) _ hmapm]
    rw [setCol_rowmap_eq _ _ _ 3 _ hemail]
  · simp
  · intro i hi
    have hi1 : i < (rows.map (fun r => r.set 2 (fillHeadOffice (r.getD 2 Cell.null)))).length := by
      simpa using hi
    have houter : ((rows.map (fun r => r.set 2 (fillHeadOffice (r.getD 2 Cell.null)))).map
        (fun r => r.set 3 (emailRule dimCustomerSelectedColumns r))).getD i []
        = ((rows.getD i []).set 2 (fillHeadOffice ((rows.getD i []).getD 2 Cell.null))).set 3
            (emailRule dimCustomerSelectedColumns
              ((rows.getD i []).set 2 (fillHeadOffice ((rows.getD i []).getD 2 Cell.null)))) := by
      rw [getD_map_lt _ _ i [] [] hi1, getD_map_lt _ _ i [] [] hi]
    have hrmem : rows.getD i [] ∈ rows := getD_mem rows i [] hi
    have hrlen : (rows.getD i []).length = 25 := hwf _ hrmem
    refine ⟨?_, ?_, ?_⟩
    · rw [houter, getD_set_ne _ 3 2 _ Cell.null (by omega),
        getD_set_self _ 2 _ Cell.null (by omega), fillHeadOffice]
    · have h3lt : 3 < ((rows.getD i []).set 2
          (fillHeadOffice ((rows.getD i []).getD 2 Cell.null))).length := by
        rw [List.length_set]
        omega
      rw [houter, getD_set_self _ 3 _ Cell.null h3lt, emailRule_set2]
    · intro j hj2 hj3
      rw [houter, getD_set_ne _ 3 j _ Cell.null (fun he => hj3 he.symm),
        getD_set_ne _ 2 j _ Cell.null (fun he => hj2 he.symm)]

/-- Witness for C6 at the two concrete rows: the imputation succeeds, keeps
the shape, and synthesizes info@tailspintoys.com from the customer name
"Tailspin Toys (Head Office)" on the row with a missing email. -/
theorem impute_contact_info_char_w :
    (∃ out : DataFrame,
      imputeContactInfo ⟨dimCustomerSelectedColumns, contactRowsEx⟩ = Except.ok out ∧
      out.cols = dimCustomerSelectedColumns ∧
      out.rows.length = contactRowsEx.length) ∧
    ((imputeContactInfo ⟨dimCustomerSelectedColumns, contactRowsEx⟩).toOption.map
        (fun out => ((out.rows.getD 0 []).getD 3 Cell.null, (out.rows.getD 0 []).getD 2 Cell.null)))
      = some (Cell.str ("info@tailspintoys.com"), Cell.str ("Head Office")) := by
  have hname : ∀ r ∈ contactRowsEx, r.getD 3 Cell.null = Cell.null →
      ∃ s, r.getD 1 Cell.null = Cell.str s := by
    intro r hr h
    rcases List.mem_cons.mp hr with h1 | hrest
    · subst h1
      exact ⟨"Tailspin Toys (Head Office)", by decide⟩
    · rcases List.mem_cons.mp hrest with h2 | hnil
      · subst h2
        exact absurd h (by decide)
      · simp at hnil
  constructor
  · obtain ⟨out, h1, h2, h3, _⟩ := impute_contact_info_char contactRowsEx (by decide) hname
    exact ⟨out, h1, h2, h3⟩
  · decide

end Lakehouse
